import Mathlib

/-!
# Distributed plan scheduler: shallow embedding and verification

This development models the `PlanScheduler::reschedule` entry point of the
fusequery engine (file `fusequery/query/src/interpreters/plan_scheduler.rs`,
exercised by `plan_scheduler_test.rs`): given a cluster topology and a logical
plan annotated with exchange-stage boundaries, it computes the coordinator's
local plan and the ordered list of remote tasks, or rejects a plan whose
terminal destination set is not the local node.
-/

/-- Exchange-stage kinds, mirroring `common_planners::StageKind`
(`Normal`, `Expansive`, `Convergent`). -/
inductive StageKind
  | Normal
  | Expansive
  | Convergent
deriving DecidableEq

/-- Routing expressions (`common_planners::ExpressionAction`), opaque and
uninterpreted data for the scheduler.  Only the variants used by the
scheduler tests are modelled: literals and scalar-function applications. -/
inductive ExpressionAction
  | Literal (value : Nat)
  | ScalarFunction (op : String) (args : List ExpressionAction)

/-- Plan-tree variants relevant to the scheduler (`common_planners::PlanNode`):
a leaf (`Empty`), a pass-through unary operator (`Select`), an exchange
boundary (`Stage { kind, scatters_expr, input }`), and the remote-fetch
placeholder (`Remote { fetch_name, fetch_nodes }`) produced by scheduling. -/
inductive PlanNode
  | Empty
  | Select (input : PlanNode)
  | Stage (kind : StageKind) (scatters_expr : ExpressionAction) (input : PlanNode)
  | Remote (fetch_name : String) (fetch_nodes : List String)

/-- The cluster topology seen by one query: the registered node names in
registration order and the name of the local (coordinator) node. -/
structure ClusterTopology where
  nodes : List String
  localNode : String
deriving DecidableEq

/-- One emitted task (`ExecutePlanWithShuffleAction` paired with its assigned
node): the node that must run `plan` and scatter its output to the
`scatters` nodes using `scatters_action`. -/
structure RemoteTask where
  node : String
  scatters : List String
  scatters_action : ExpressionAction
  plan : PlanNode

/-- A resolved exchange boundary, recorded innermost first while rewriting:
its source set, destination set (`scatters`), routing expression, the
fragment its source nodes must run, and a stage-unique label. -/
structure ResolvedStage where
  sources : List String
  scatters : List String
  scatters_action : ExpressionAction
  fragment : PlanNode
  tag : String

/-- Scheduling errors (`common_exception::ErrorCode`): a numeric code and a
message. -/
structure ErrorCode where
  code : Nat
  message : String
deriving DecidableEq

/-- The single scheduling error: the terminal plan is not convergent.  Code
and message are pinned by `plan_scheduler_test.rs` (code 31, message
"The final stage plan must be convergent"). -/
def nonConvergentError : ErrorCode :=
  ⟨31, "The final stage plan must be convergent"⟩

/-- Modelled from the spec: the Participation Resolver (§4.1) of the missing
`plan_scheduler.rs`.  Maps a boundary kind and the destination set resolved
for the nearest enclosed boundary to this boundary's (source set,
destination set).  Normal: all nodes to all nodes; Expansive: local only to
all nodes; Convergent: the inner destination set to local only. -/
def resolveParticipation (topo : ClusterTopology) (kind : StageKind)
    (innerDest : List String) : List String × List String :=
  match kind with
  | .Normal => (topo.nodes, topo.nodes)
  | .Expansive => ([topo.localNode], topo.nodes)
  | .Convergent => (innerDest, [topo.localNode])

/-- Result of the fragment-building pass: the rewritten plan, the resolved
boundaries (innermost first, outermost last), the destination set of the
outermost resolved boundary (all cluster nodes when none was seen, matching
the leaf default observed in `test_scheduler_plan_with_one_convergent_stage`),
and the next fresh stage label. -/
structure BuildResult where
  plan : PlanNode
  stages : List ResolvedStage
  dest : List String
  next : Nat

/-- Modelled from the spec: the Fragment Builder (§4.2) of the missing
`plan_scheduler.rs`.  One bottom-up pass that resolves each `Stage` with
`resolveParticipation`, replaces it by a `Remote` fetch carrying the stage's
source set and a fresh label, and records the resolved boundary together
with the fragment (the already-rewritten child).  A plan fragment below no
boundary is executed by every cluster node, so the default destination set
threaded up from leaves is the full node list (this is what the repository's
own test pins for a Convergent boundary over a leaf). -/
def fragmentBuild (topo : ClusterTopology) : PlanNode → Nat → BuildResult
  | .Empty, c => ⟨.Empty, [], topo.nodes, c⟩
  | .Remote n f, c => ⟨.Remote n f, [], topo.nodes, c⟩
  | .Select p, c =>
      let r := fragmentBuild topo p c
      ⟨.Select r.plan, r.stages, r.dest, r.next⟩
  | .Stage kind expr input, c =>
      let r := fragmentBuild topo input c
      let sd := resolveParticipation topo kind r.dest
      ⟨.Remote (toString r.next) sd.1,
       r.stages ++ [⟨sd.1, sd.2, expr, r.plan, toString r.next⟩],
       sd.2, r.next + 1⟩

/-- Modelled from the spec: fetch-label instantiation.  A `Remote` fetch is
addressed by a stage-unique label combined with the consuming node's name
(the tests check `fetch_name.ends_with("/<consumer>")`); the rewritten tree
carries the bare label, and the consumer's name is appended when a fragment
is assigned to a concrete node. -/
def instantiate (consumer : String) : PlanNode → PlanNode
  | .Empty => .Empty
  | .Select p => .Select (instantiate consumer p)
  | .Stage k e p => .Stage k e (instantiate consumer p)
  | .Remote tag src => .Remote (tag ++ "/" ++ consumer) src

/-- Modelled from the spec: the inner loop of the Task Emitter (§4.3) of the
missing `plan_scheduler.rs`.  For one node, walk the resolved boundaries
innermost first; each boundary whose source set contains the node yields one
task for that node, with the fragment's fetch labels instantiated for it. -/
def nodeTasks (stages : List ResolvedStage) (n : String) : List RemoteTask :=
  (stages.filter (fun s => n ∈ s.sources)).map fun s =>
    ⟨n, s.scatters, s.scatters_action, instantiate n s.fragment⟩

/-- Modelled from the spec: the Task Emitter loop (§4.3) of the missing
`plan_scheduler.rs`.  Outer loop over cluster nodes in registration order,
inner loop over resolved boundaries (node-major, stage-minor order). -/
def buildTasks (stages : List ResolvedStage) (nodes : List String) :
    List RemoteTask :=
  nodes.flatMap (nodeTasks stages)

/-- Modelled from the spec: `PlanScheduler::reschedule` (§6) of the missing
`plan_scheduler.rs`.  Rewrites the plan, and:
no boundary at all yields the input plan unchanged with no tasks;
an outermost destination set other than `[local]` is the fatal
non-convergent error; otherwise the local plan is the rewritten tree
instantiated for the local node, plus the emitted tasks. -/
def reschedule (topo : ClusterTopology) (plan : PlanNode) :
    Except ErrorCode (PlanNode × List RemoteTask) :=
  let r := fragmentBuild topo plan 0
  if r.stages.isEmpty then
    .ok (plan, [])
  else if r.dest = [topo.localNode] then
    .ok (instantiate topo.localNode r.plan, buildTasks r.stages topo.nodes)
  else
    .error nonConvergentError

/-- The two-node topology used by every test in `plan_scheduler_test.rs`:
"dummy_local" registered first and local, then "dummy". -/
def topoTest : ClusterTopology :=
  ⟨["dummy_local", "dummy"], "dummy_local"⟩

/-- True when the plan contains at least one exchange boundary (`Stage`). -/
def hasStage : PlanNode → Bool
  | .Empty => false
  | .Select p => hasStage p
  | .Stage _ _ _ => true
  | .Remote _ _ => false

/-- The routing expressions declared on the plan's exchange boundaries,
listed innermost first — the order in which `fragmentBuild` resolves them. -/
def stageExprs : PlanNode → List ExpressionAction
  | .Empty => []
  | .Select p => stageExprs p
  | .Stage _ e p => stageExprs p ++ [e]
  | .Remote _ _ => []

/-- The `fetch_nodes` lists of all `Remote` fetch nodes occurring in a plan. -/
def fetchLists : PlanNode → List (List String)
  | .Empty => []
  | .Select p => fetchLists p
  | .Stage _ _ p => fetchLists p
  | .Remote _ f => [f]

/-- True when the plan contains no `Remote` fetch node; every input plan
handed to the scheduler by the binder/optimizer is remote-free, because
`Remote` nodes are produced only by scheduling itself. -/
def remoteFree : PlanNode → Bool
  | .Empty => true
  | .Select p => remoteFree p
  | .Stage _ _ p => remoteFree p
  | .Remote _ _ => false

/-- The model reproduces `test_scheduler_plan_without_stage`. -/
theorem modelTestWithoutStage :
    reschedule topoTest .Empty = .ok (.Empty, []) := rfl

/-- The model reproduces `test_scheduler_plan_with_one_normal_stage`. -/
theorem modelTestOneNormalStage :
    reschedule topoTest
        (.Stage .Normal (.Literal 1) .Empty) = .error nonConvergentError := rfl

/-- The model reproduces `test_scheduler_plan_with_one_expansive_stage`. -/
theorem modelTestOneExpansiveStage :
    reschedule topoTest
        (.Stage .Expansive (.Literal 1) .Empty) = .error nonConvergentError := rfl

/-- The model reproduces `test_scheduler_plan_with_one_convergent_stage`:
two tasks in registration order, each scattering to the local node only,
and a local Remote fetch over both nodes. -/
theorem modelTestOneConvergentStage :
    reschedule topoTest (.Stage .Convergent (.Literal 0) .Empty) =
      .ok (.Remote ("0/dummy_local") ["dummy_local", "dummy"],
           [⟨"dummy_local", ["dummy_local"], .Literal 0, .Empty⟩,
            ⟨"dummy", ["dummy_local"], .Literal 0, .Empty⟩]) := rfl

/-- The model reproduces `test_scheduler_plan_with_convergent_and_expansive_stage`:
three tasks (one Expansive on the local node, one Convergent per node). -/
theorem modelTestConvergentAndExpansiveStage :
    reschedule topoTest
        (.Select (.Stage .Convergent (.Literal 0)
          (.Select (.Stage .Expansive (.ScalarFunction "blockNumber" []) .Empty)))) =
      .ok (.Select (.Remote "1/dummy_local" ["dummy_local", "dummy"]),
           [⟨"dummy_local", ["dummy_local", "dummy"],
              .ScalarFunction "blockNumber" [], .Empty⟩,
            ⟨"dummy_local", ["dummy_local"], .Literal 0,
              .Select (.Remote "0/dummy_local" ["dummy_local"])⟩,
            ⟨"dummy", ["dummy_local"], .Literal 0,
              .Select (.Remote "0/dummy" ["dummy_local"])⟩]) := rfl

/-- The model reproduces `test_scheduler_plan_with_convergent_and_normal_stage`:
four tasks, node-major (Normal then Convergent per node). -/
theorem modelTestConvergentAndNormalStage :
    reschedule topoTest
        (.Select (.Stage .Convergent (.Literal 1)
          (.Select (.Stage .Normal (.Literal 0) .Empty)))) =
      .ok (.Select (.Remote "1/dummy_local" ["dummy_local", "dummy"]),
           [⟨"dummy_local", ["dummy_local", "dummy"], .Literal 0, .Empty⟩,
            ⟨"dummy_local", ["dummy_local"], .Literal 1,
              .Select (.Remote "0/dummy_local" ["dummy_local", "dummy"])⟩,
            ⟨"dummy", ["dummy_local", "dummy"], .Literal 0, .Empty⟩,
            ⟨"dummy", ["dummy_local"], .Literal 1,
              .Select (.Remote "0/dummy" ["dummy_local", "dummy"])⟩]) := rfl

theorem fragmentBuild_no_stage (topo : ClusterTopology) :
    ∀ (p : PlanNode) (c : Nat), hasStage p = false →
      fragmentBuild topo p c = ⟨p, [], topo.nodes, c⟩ := by
  intro p
  induction p with
  | Empty => intro c _; rfl
  | Remote n f => intro c _; rfl
  | Select p ih =>
      intro c h
      simp only [hasStage] at h
      simp [fragmentBuild, ih c h]
  | Stage k e p ih =>
      intro c h
      simp [hasStage] at h

/-- C6: for every plan containing no Exchange Boundary, `reschedule` succeeds
and returns that plan unchanged as the local plan together with an empty
task list. -/
theorem noBoundaryIdentity (topo : ClusterTopology) (plan : PlanNode)
    (h : hasStage plan = false) :
    reschedule topo plan = .ok (plan, []) := by
  simp [reschedule, fragmentBuild_no_stage topo plan 0 h]

theorem noBoundaryIdentity_witness :
    reschedule topoTest (.Select .Empty) = .ok (.Select .Empty, []) :=
  noBoundaryIdentity topoTest (.Select .Empty) rfl

/-- C9: `reschedule` is deterministic — two runs on the same plan and
topology produce the same local plan and the same task list, in the same
order. -/
theorem rescheduleDeterministic (topo : ClusterTopology) (plan : PlanNode)
    (r1 r2 : Except ErrorCode (PlanNode × List RemoteTask))
    (h1 : reschedule topo plan = r1) (h2 : reschedule topo plan = r2) :
    r1 = r2 :=
  h1.symm.trans h2

theorem rescheduleDeterministic_witness :
    (Except.ok (PlanNode.Empty, ([] : List RemoteTask)) :
        Except ErrorCode (PlanNode × List RemoteTask))
      = .ok (.Empty, []) :=
  rescheduleDeterministic topoTest .Empty _ _ rfl rfl

/-- C10: whenever `reschedule` fails, the error carries exactly code 31 and
exactly the message "The final stage plan must be convergent". -/
theorem errorCodeFixed (topo : ClusterTopology) (plan : PlanNode)
    (err : ErrorCode) (h : reschedule topo plan = .error err) :
    err.code = 31 ∧ err.message = "The final stage plan must be convergent" := by
  simp only [reschedule] at h
  split at h
  · exact Except.noConfusion h
  · split at h
    · exact Except.noConfusion h
    · injection h with h'
      rw [← h']
      exact ⟨rfl, rfl⟩

theorem errorCodeFixed_witness :
    nonConvergentError.code = 31
    ∧ nonConvergentError.message = "The final stage plan must be convergent" :=
  errorCodeFixed topoTest (.Stage .Normal (.Literal 1) .Empty)
    nonConvergentError rfl

/-- C1 (amended): whenever at least one Exchange Boundary was resolved and
the outermost resolved destination set is not exactly `[local node]`,
`reschedule` fails with the single non-convergent error and returns no
tasks and no local plan; in particular a plan whose single outermost node
is a Normal or Expansive boundary fails this way for any cluster of size
at least 2.  (At size 1 the all-node destination set coincides with
`[local node]` and scheduling succeeds, so "size ≥ 1" is amended to
"size ≥ 2".) -/
theorem nonConvergentRejection :
    (∀ (topo : ClusterTopology) (plan : PlanNode),
        (fragmentBuild topo plan 0).stages ≠ [] →
        (fragmentBuild topo plan 0).dest ≠ [topo.localNode] →
        reschedule topo plan = .error nonConvergentError)
    ∧ (∀ (topo : ClusterTopology) (e : ExpressionAction) (input : PlanNode),
        2 ≤ topo.nodes.length →
        reschedule topo (.Stage .Normal e input) = .error nonConvergentError
        ∧ reschedule topo (.Stage .Expansive e input) = .error nonConvergentError) := by
  have key : ∀ (topo : ClusterTopology) (plan : PlanNode),
      (fragmentBuild topo plan 0).stages ≠ [] →
      (fragmentBuild topo plan 0).dest ≠ [topo.localNode] →
      reschedule topo plan = .error nonConvergentError := by
    intro topo plan h1 h2
    simp [reschedule, List.isEmpty_iff, h1, h2]
  refine ⟨key, ?_⟩
  intro topo e input h
  have hne : topo.nodes ≠ [topo.localNode] := by
    intro hc
    rw [hc] at h
    simp at h
  constructor
  · apply key
    · simp [fragmentBuild]
    · simpa [fragmentBuild, resolveParticipation] using hne
  · apply key
    · simp [fragmentBuild]
    · simpa [fragmentBuild, resolveParticipation] using hne

theorem nonConvergentRejection_witness :
    reschedule topoTest (.Stage .Normal (.Literal 1) .Empty)
        = .error nonConvergentError
    ∧ reschedule topoTest (.Stage .Expansive (.Literal 1) .Empty)
        = .error nonConvergentError :=
  nonConvergentRejection.2 topoTest (.Literal 1) .Empty (by decide)

/-- C1 counterexample: on a single-node cluster whose only node is the local
node, a plan whose single outermost node is a Normal Exchange Boundary is
scheduled successfully (its all-node destination set is exactly the local
singleton), contradicting "fails ... for any cluster size ≥ 1". -/
theorem singleNodeNormalSchedules :
    reschedule ⟨["solo"], "solo"⟩ (.Stage .Normal (.Literal 1) .Empty) =
      .ok (.Remote "0/solo" ["solo"],
           [⟨"solo", ["solo"], .Literal 1, .Empty⟩]) := rfl

/-- C2: for every cluster and a single Convergent boundary directly wrapping
the leaf, `reschedule` succeeds and returns one task per registered node, in
registration order, each with destination `[local node]` and the boundary's
child as fragment, and the local plan is a Remote fetch over the full node
list in registration order. -/
theorem singleConvergentSchedulesAllNodes (topo : ClusterTopology)
    (e : ExpressionAction) :
    reschedule topo (.Stage .Convergent e .Empty) =
      .ok (.Remote ("0/" ++ topo.localNode) topo.nodes,
           topo.nodes.map fun n =>
             (⟨n, [topo.localNode], e, .Empty⟩ : RemoteTask)) := by
  have htasks : ∀ l : List String, (∀ a ∈ l, a ∈ topo.nodes) →
      buildTasks [⟨topo.nodes, [topo.localNode], e, .Empty, "0"⟩] l
        = l.map fun n => (⟨n, [topo.localNode], e, .Empty⟩ : RemoteTask) := by
    intro l
    induction l with
    | nil => intro _; rfl
    | cons a t ih =>
        intro h
        have ha : a ∈ topo.nodes := h a (List.mem_cons_self a t)
        have ht := ih fun b hb => h b (List.mem_cons_of_mem a hb)
        simp only [buildTasks] at ht ⊢
        simp [List.flatMap_cons, nodeTasks, List.filter_cons, ha, instantiate, ht]
  have h0 : toString (0 : Nat) = "0" := rfl
  have hs : ("0" : String) ++ "/" = "0/" := rfl
  simp only [reschedule]
  simp [fragmentBuild, resolveParticipation, instantiate, h0, hs,
        htasks topo.nodes (fun a ha => ha)]

/-- C4: for the stage chain "Expansive first, then Convergent"
(a Convergent boundary enclosing an Expansive boundary over the leaf) on a
2-node cluster with the local node registered first, `reschedule` succeeds
with exactly 3 tasks: the Expansive task assigned to the local node only,
with both nodes as destinations, immediately followed by the local node's
Convergent task, then the other node's Convergent task, each Convergent
task with destination `[local node]`. -/
theorem expansiveThenConvergentTasks (l o : String)
    (e1 e2 : ExpressionAction) (h : l ≠ o) :
    reschedule ⟨[l, o], l⟩
        (.Stage .Convergent e1 (.Stage .Expansive e2 .Empty)) =
      .ok (.Remote ("1/" ++ l) [l, o],
           [⟨l, [l, o], e2, .Empty⟩,
            ⟨l, [l], e1, .Remote ("0/" ++ l) [l]⟩,
            ⟨o, [l], e1, .Remote ("0/" ++ o) [l]⟩]) := by
  have h' : o ≠ l := Ne.symm h
  have h0 : toString (0 : Nat) = "0" := rfl
  have h1 : toString (1 : Nat) = "1" := rfl
  have hs0 : ("0" : String) ++ "/" = "0/" := rfl
  have hs1 : ("1" : String) ++ "/" = "1/" := rfl
  simp only [reschedule]
  simp [fragmentBuild, resolveParticipation, buildTasks, nodeTasks,
        instantiate, List.flatMap_cons, List.filter_cons, h', h0, h1, hs0, hs1]

theorem expansiveThenConvergentTasks_witness :
    reschedule ⟨["dummy_local", "dummy"], "dummy_local"⟩
        (.Stage .Convergent (.Literal 0)
          (.Stage .Expansive (.ScalarFunction "blockNumber" []) .Empty)) =
      .ok (.Remote "1/dummy_local" ["dummy_local", "dummy"],
           [⟨"dummy_local", ["dummy_local", "dummy"],
              .ScalarFunction "blockNumber" [], .Empty⟩,
            ⟨"dummy_local", ["dummy_local"], .Literal 0,
              .Remote "0/dummy_local" ["dummy_local"]⟩,
            ⟨"dummy", ["dummy_local"], .Literal 0,
              .Remote "0/dummy" ["dummy_local"]⟩]) :=
  expansiveThenConvergentTasks "dummy_local" "dummy" (.Literal 0)
    (.ScalarFunction "blockNumber" []) (by decide)

/-- C5: for the stage chain "Normal first, then Convergent" (a Convergent
boundary enclosing a Normal boundary over the leaf) on a 2-node cluster
with the local node registered first, `reschedule` succeeds with exactly 4
tasks: for each node in registration order, one Normal task with both nodes
as destinations followed by that node's Convergent task with destination
`[local node]`. -/
theorem normalThenConvergentTasks (l o : String)
    (e1 e2 : ExpressionAction) :
    reschedule ⟨[l, o], l⟩
        (.Stage .Convergent e1 (.Stage .Normal e2 .Empty)) =
      .ok (.Remote ("1/" ++ l) [l, o],
           [⟨l, [l, o], e2, .Empty⟩,
            ⟨l, [l], e1, .Remote ("0/" ++ l) [l, o]⟩,
            ⟨o, [l, o], e2, .Empty⟩,
            ⟨o, [l], e1, .Remote ("0/" ++ o) [l, o]⟩]) := by
  have h0 : toString (0 : Nat) = "0" := rfl
  have h1 : toString (1 : Nat) = "1" := rfl
  have hs0 : ("0" : String) ++ "/" = "0/" := rfl
  have hs1 : ("1" : String) ++ "/" = "1/" := rfl
  simp only [reschedule]
  simp [fragmentBuild, resolveParticipation, buildTasks, nodeTasks,
        instantiate, List.flatMap_cons, List.filter_cons, h0, h1, hs0, hs1]

/-- C3 (amended): the Participation Resolver maps kind Normal to source and
destination sets both equal to all cluster nodes; Expansive to source
`[local node]` and destination all nodes; Convergent to source equal to the
destination set produced by the nearest enclosed boundary — or all cluster
nodes if none (not `[local node]` as claimed) — and destination
`[local node]`; for a well-formed topology and inner destination set, both
produced sets are non-empty subsets of the cluster topology. -/
theorem participationResolution (topo : ClusterTopology)
    (innerDest : List String)
    (hnodes : topo.nodes ≠ []) (hloc : topo.localNode ∈ topo.nodes)
    (hne : innerDest ≠ []) (hsub : ∀ n ∈ innerDest, n ∈ topo.nodes) :
    resolveParticipation topo .Normal innerDest = (topo.nodes, topo.nodes)
    ∧ resolveParticipation topo .Expansive innerDest
        = ([topo.localNode], topo.nodes)
    ∧ resolveParticipation topo .Convergent innerDest
        = (innerDest, [topo.localNode])
    ∧ (∀ (p : PlanNode) (c : Nat), hasStage p = false →
        (fragmentBuild topo p c).dest = topo.nodes)
    ∧ ∀ kind : StageKind,
        (resolveParticipation topo kind innerDest).1 ≠ []
        ∧ (resolveParticipation topo kind innerDest).2 ≠ []
        ∧ (∀ n ∈ (resolveParticipation topo kind innerDest).1, n ∈ topo.nodes)
        ∧ (∀ n ∈ (resolveParticipation topo kind innerDest).2, n ∈ topo.nodes) := by
  refine ⟨rfl, rfl, rfl, ?_, ?_⟩
  · intro p c hp
    rw [fragmentBuild_no_stage topo p c hp]
  · intro kind
    cases kind with
    | Normal => exact ⟨hnodes, hnodes, fun n hn => hn, fun n hn => hn⟩
    | Expansive =>
        refine ⟨by simp [resolveParticipation], hnodes, ?_, fun n hn => hn⟩
        intro n hn
        simp only [resolveParticipation, List.mem_singleton] at hn
        rw [hn]
        exact hloc
    | Convergent =>
        refine ⟨hne, by simp [resolveParticipation], hsub, ?_⟩
        intro n hn
        simp only [resolveParticipation, List.mem_singleton] at hn
        rw [hn]
        exact hloc

theorem participationResolution_witness :
    resolveParticipation topoTest .Convergent ["dummy"]
      = (["dummy"], ["dummy_local"]) :=
  (participationResolution topoTest ["dummy"] (by decide) (by decide)
      (by decide) (by decide)).2.2.1

/-- C3 counterexample: on the repository's two-node test topology, a
Convergent boundary with no enclosed boundary (directly wrapping the leaf)
resolves its source set to all cluster nodes `["dummy_local", "dummy"]`,
not to the singleton `["dummy_local"]` the claim's "(or {local} if none)"
default requires. -/
theorem convergentLeafSourcesAllNodes :
    ((fragmentBuild topoTest (.Stage .Convergent (.Literal 0) .Empty)
          0).stages.map fun s => s.sources) = [["dummy_local", "dummy"]]
    ∧ (["dummy_local", "dummy"] : List String) ≠ ["dummy_local"] :=
  ⟨rfl, by decide⟩

theorem fragmentBuild_actions (topo : ClusterTopology) :
    ∀ (p : PlanNode) (c : Nat),
      ((fragmentBuild topo p c).stages.map fun s => s.scatters_action)
        = stageExprs p := by
  intro p
  induction p with
  | Empty => intro c; rfl
  | Remote t f => intro c; rfl
  | Select p ih => intro c; simp [fragmentBuild, stageExprs, ih]
  | Stage k e p ih => intro c; simp [fragmentBuild, stageExprs, ih]

theorem mem_buildTasks (stages : List ResolvedStage) (nodes : List String)
    (t : RemoteTask) (ht : t ∈ buildTasks stages nodes) :
    ∃ n, ∃ s ∈ stages, n ∈ s.sources ∧ n ∈ nodes
      ∧ t = ⟨n, s.scatters, s.scatters_action, instantiate n s.fragment⟩ := by
  simp only [buildTasks, nodeTasks, List.mem_flatMap, List.mem_map,
    List.mem_filter, decide_eq_true_eq] at ht
  obtain ⟨n, hn, s, ⟨hs, hsrc⟩, rfl⟩ := ht
  exact ⟨n, s, hs, hsrc, hn, rfl⟩

/-- C7: for every successful scheduling, the resolved boundaries record the
plan's routing expressions verbatim, in resolution order, and the routing
expression on every emitted task is one of the expressions declared on the
plan's Exchange Boundaries — the scheduler forwards them unmutated. -/
theorem routingExpressionPassThrough (topo : ClusterTopology)
    (plan lp : PlanNode) (tasks : List RemoteTask)
    (h : reschedule topo plan = .ok (lp, tasks)) :
    ((fragmentBuild topo plan 0).stages.map fun s => s.scatters_action)
        = stageExprs plan
    ∧ ∀ t ∈ tasks, t.scatters_action ∈ stageExprs plan := by
  refine ⟨fragmentBuild_actions topo plan 0, ?_⟩
  intro t ht
  simp only [reschedule] at h
  split at h
  · simp only [Except.ok.injEq, Prod.mk.injEq] at h
    rw [← h.2] at ht
    exact absurd ht (List.not_mem_nil t)
  · split at h
    · simp only [Except.ok.injEq, Prod.mk.injEq] at h
      rw [← h.2] at ht
      obtain ⟨n, s, hs, _, _, rfl⟩ := mem_buildTasks _ _ _ ht
      rw [← fragmentBuild_actions topo plan 0]
      exact List.mem_map_of_mem _ hs
    · exact Except.noConfusion h

theorem routingExpressionPassThrough_witness :
    ((fragmentBuild topoTest (.Stage .Convergent (.Literal 0) .Empty)
          0).stages.map fun s => s.scatters_action)
        = stageExprs (.Stage .Convergent (.Literal 0) .Empty)
    ∧ ∀ t ∈ [(⟨"dummy_local", ["dummy_local"], .Literal 0, .Empty⟩ : RemoteTask),
             ⟨"dummy", ["dummy_local"], .Literal 0, .Empty⟩],
        t.scatters_action ∈ stageExprs (.Stage .Convergent (.Literal 0) .Empty) :=
  routingExpressionPassThrough topoTest (.Stage .Convergent (.Literal 0) .Empty)
    (.Remote "0/dummy_local" ["dummy_local", "dummy"])
    [⟨"dummy_local", ["dummy_local"], .Literal 0, .Empty⟩,
     ⟨"dummy", ["dummy_local"], .Literal 0, .Empty⟩] rfl

theorem fetchLists_instantiate (n : String) :
    ∀ p : PlanNode, fetchLists (instantiate n p) = fetchLists p := by
  intro p
  induction p with
  | Empty => rfl
  | Select p ih => simp [instantiate, fetchLists, ih]
  | Stage k e p ih => simp [instantiate, fetchLists, ih]
  | Remote t f => rfl

theorem remoteFree_fetchLists :
    ∀ p : PlanNode, remoteFree p = true → fetchLists p = [] := by
  intro p
  induction p with
  | Empty => intro _; rfl
  | Select p ih =>
      intro h
      simp only [remoteFree] at h
      simp [fetchLists, ih h]
  | Stage k e p ih =>
      intro h
      simp only [remoteFree] at h
      simp [fetchLists, ih h]
  | Remote t f => intro h; simp [remoteFree] at h

theorem fragmentBuild_sublists (topo : ClusterTopology)
    (hloc : topo.localNode ∈ topo.nodes) :
    ∀ (p : PlanNode) (c : Nat), remoteFree p = true →
      List.Sublist (fragmentBuild topo p c).dest topo.nodes
      ∧ (∀ f ∈ fetchLists (fragmentBuild topo p c).plan, List.Sublist f topo.nodes)
      ∧ (∀ s ∈ (fragmentBuild topo p c).stages,
          List.Sublist s.sources topo.nodes
          ∧ List.Sublist s.scatters topo.nodes
          ∧ ∀ f ∈ fetchLists s.fragment, List.Sublist f topo.nodes) := by
  intro p
  induction p with
  | Empty =>
      intro c _
      exact ⟨List.Sublist.refl _, by simp [fragmentBuild, fetchLists],
             by simp [fragmentBuild]⟩
  | Remote t f =>
      intro c h
      simp [remoteFree] at h
  | Select p ih =>
      intro c h
      simp only [remoteFree] at h
      obtain ⟨h1, h2, h3⟩ := ih c h
      exact ⟨h1, by simpa [fragmentBuild, fetchLists] using h2,
             by simpa [fragmentBuild] using h3⟩
  | Stage k e p ih =>
      intro c h
      simp only [remoteFree] at h
      obtain ⟨h1, h2, h3⟩ := ih c h
      have hsd : List.Sublist (resolveParticipation topo k
            (fragmentBuild topo p c).dest).1 topo.nodes
          ∧ List.Sublist (resolveParticipation topo k
            (fragmentBuild topo p c).dest).2 topo.nodes := by
        cases k with
        | Normal => exact ⟨List.Sublist.refl _, List.Sublist.refl _⟩
        | Expansive =>
            exact ⟨List.singleton_sublist.mpr hloc, List.Sublist.refl _⟩
        | Convergent =>
            exact ⟨h1, List.singleton_sublist.mpr hloc⟩
      refine ⟨?_, ?_, ?_⟩
      · simpa [fragmentBuild] using hsd.2
      · simp only [fragmentBuild, fetchLists, List.mem_singleton]
        intro f hf
        rw [hf]
        exact hsd.1
      · simp only [fragmentBuild, List.mem_append, List.mem_singleton]
        intro s hs
        rcases hs with hs | hs
        · exact h3 s hs
        · rw [hs]
          exact ⟨hsd.1, hsd.2, h2⟩

theorem buildTasks_map_node (stages : List ResolvedStage)
    (nodes : List String) :
    (buildTasks stages nodes).map (fun t => t.node)
      = nodes.flatMap fun n =>
          (stages.filter fun s => n ∈ s.sources).map fun _ => n := by
  simp [buildTasks, nodeTasks, List.map_flatMap, List.map_map,
    Function.comp_def]

/-- C8: in every successful scheduling of a remote-free input plan on a
well-formed topology, every task's destination list and every Remote
fetch's source list (in task fragments and in the local plan) is an
order-preserving sublist of the cluster's registration order, and the task
list is emitted node-major: its assigned-node sequence enumerates the
cluster nodes in registration order, each repeated once per resolved
boundary containing it. -/
theorem nodeOrderingContract (topo : ClusterTopology) (plan lp : PlanNode)
    (tasks : List RemoteTask)
    (hloc : topo.localNode ∈ topo.nodes)
    (hrf : remoteFree plan = true)
    (h : reschedule topo plan = .ok (lp, tasks)) :
    (∀ t ∈ tasks, List.Sublist t.scatters topo.nodes
        ∧ ∀ f ∈ fetchLists t.plan, List.Sublist f topo.nodes)
    ∧ (∀ f ∈ fetchLists lp, List.Sublist f topo.nodes)
    ∧ tasks.map (fun t => t.node)
        = topo.nodes.flatMap fun n =>
            ((fragmentBuild topo plan 0).stages.filter fun s =>
              n ∈ s.sources).map fun _ => n := by
  obtain ⟨hdest, hplan, hstages⟩ := fragmentBuild_sublists topo hloc plan 0 hrf
  simp only [reschedule] at h
  split at h
  · rename_i hEmpty
    simp only [Except.ok.injEq, Prod.mk.injEq] at h
    have hstnil : (fragmentBuild topo plan 0).stages = [] :=
      List.isEmpty_iff.mp hEmpty
    refine ⟨?_, ?_, ?_⟩
    · intro t ht
      rw [← h.2] at ht
      exact absurd ht (List.not_mem_nil t)
    · intro f hf
      rw [← h.1, remoteFree_fetchLists plan hrf] at hf
      exact absurd hf (List.not_mem_nil f)
    · rw [← h.2, hstnil]
      simp
  · split at h
    · simp only [Except.ok.injEq, Prod.mk.injEq] at h
      refine ⟨?_, ?_, ?_⟩
      · intro t ht
        rw [← h.2] at ht
        obtain ⟨n, s, hs, _, _, rfl⟩ := mem_buildTasks _ _ _ ht
        obtain ⟨h1s, h2s, h3s⟩ := hstages s hs
        refine ⟨h2s, ?_⟩
        intro f hf
        rw [fetchLists_instantiate] at hf
        exact h3s f hf
      · intro f hf
        rw [← h.1, fetchLists_instantiate] at hf
        exact hplan f hf
      · rw [← h.2, buildTasks_map_node]
    · exact Except.noConfusion h

theorem nodeOrderingContract_witness :
    (∀ t ∈ [(⟨"dummy_local", ["dummy_local"], .Literal 0, .Empty⟩ : RemoteTask),
            ⟨"dummy", ["dummy_local"], .Literal 0, .Empty⟩],
        List.Sublist t.scatters topoTest.nodes
        ∧ ∀ f ∈ fetchLists t.plan, List.Sublist f topoTest.nodes)
    ∧ (∀ f ∈ fetchLists (.Remote "0/dummy_local" ["dummy_local", "dummy"]),
        List.Sublist f topoTest.nodes)
    ∧ ([(⟨"dummy_local", ["dummy_local"], .Literal 0, .Empty⟩ : RemoteTask),
        ⟨"dummy", ["dummy_local"], .Literal 0, .Empty⟩].map (fun t => t.node)
        = topoTest.nodes.flatMap fun n =>
            ((fragmentBuild topoTest
                (.Stage .Convergent (.Literal 0) .Empty) 0).stages.filter
              fun s => n ∈ s.sources).map fun _ => n) :=
  nodeOrderingContract topoTest (.Stage .Convergent (.Literal 0) .Empty)
    (.Remote "0/dummy_local" ["dummy_local", "dummy"])
    [⟨"dummy_local", ["dummy_local"], .Literal 0, .Empty⟩,
     ⟨"dummy", ["dummy_local"], .Literal 0, .Empty⟩]
    (by decide) rfl rfl
